import Mathlib

/-!
Verification of the Live-Translate speech-recognition session and
silence-commit logic.

The development shallowly embeds the core of the repository:

* `useSpeechRecognition` (restart scheduling, fault classification,
  result handling, watchdog auto-stop) from
  `src/hooks/useSpeechRecognition.ts`;
* the silence-based commit controller (`commitTranscript`, the
  speaker-switch flush and the silence-timer effect) from `src/App.tsx`;
* the translation client (`translate` with its built-in dictionaries and
  API fallbacks) from `src/utils/translation.ts`.

JavaScript strings are modelled as lists of characters; `Date.now()`
values as naturals; each timer slot as an explicit handle in the state.
External outcomes (platform start success, API responses) are passed in
as parameters, mirroring the event-driven single-threaded execution.
-/

/-- A JavaScript string, modelled as its sequence of characters. -/
abbrev Str := List Char

/-- Whitespace as removed by `String.prototype.trim` (the common
whitespace characters that occur in transcripts). -/
def isWS (c : Char) : Bool := c == ' ' || c == '\t' || c == '\n' || c == '\r'

/-- JavaScript `text.trim()`: remove whitespace from both ends. -/
def trimStr (l : Str) : Str := List.rdropWhile isWS (List.dropWhile isWS l)

/-!
Recognition session wrapper, from `src/hooks/useSpeechRecognition.ts`.
-/

/-- The fault kinds classified as recoverable
(`const RECOVERABLE_ERRORS = new Set([...])`). -/
def RECOVERABLE_ERRORS : List String := ["no-speech", "aborted", "audio-capture", "network"]

/-- What an event handler of the hook does to the recognizer: nothing,
schedule a restart after a delay (ms), or stop the handle. -/
inductive RecAction where
  | nothing : RecAction
  | restartAfter : Nat → RecAction
  | stopRec : RecAction
deriving DecidableEq

/-- The `onerror` handler: returns while not listening; schedules a restart
with a kind-dependent delay for a recoverable fault (1200 ms for `network`,
400 ms otherwise); stops the recognizer for any other fault. -/
def onerror (isListening : Bool) (kind : String) : RecAction :=
  if !isListening then RecAction.nothing
  else if kind ∈ RECOVERABLE_ERRORS then
    RecAction.restartAfter (if kind = "network" then 1200 else 400)
  else RecAction.stopRec

/-- The single-slot restart timer (`restartTimeoutRef`), modelled as the
list of pending restart timers so that single-flight is a statement, not a
typing accident. -/
structure RestartSt where
  pending : List Nat
deriving DecidableEq

/-- `clearRestartTimeout`: cancel the pending restart timer, if any. -/
def clearRestartTimeout (_st : RestartSt) : RestartSt := ⟨[]⟩

/-- `scheduleRestart`: clear the previous timer, then install one timer
with the given delay. -/
def scheduleRestart (st : RestartSt) (delay : Nat) : RestartSt :=
  ⟨(clearRestartTimeout st).pending ++ [delay]⟩

/-- Outcome of `recognition.start()` inside the restart timer callback:
success, `InvalidStateError` (already running), or any other exception. -/
inductive StartOutcome where
  | ok : StartOutcome
  | invalidState : StartOutcome
  | otherFailure : StartOutcome
deriving DecidableEq

/-- The restart timer firing (body of the `setTimeout` in `scheduleRestart`):
the slot is nulled; nothing further happens unless still listening with a
recognizer; `start()` success and `InvalidStateError` both end the episode;
any other failure reschedules with delay `min (delay + 100) 1000` while
still listening. -/
def restartTimerFire (isListening hasRecognition : Bool) (outcome : StartOutcome)
    (delay : Nat) : RestartSt :=
  if !isListening || !hasRecognition then ⟨[]⟩
  else
    match outcome with
    | StartOutcome.ok => ⟨[]⟩
    | StartOutcome.invalidState => ⟨[]⟩
    | StartOutcome.otherFailure =>
        if isListening then scheduleRestart ⟨[]⟩ (min (delay + 100) 1000) else ⟨[]⟩

/-- The `onend` handler: schedule a restart (default 50 ms delay) while
listening, otherwise clear the pending restart. -/
def onend (isListening : Bool) (st : RestartSt) : RestartSt :=
  if isListening then scheduleRestart st 50 else clearRestartTimeout st

/-- One entry of a platform result event: a transcript piece tagged final
or interim (`event.results[i]`). -/
structure Segment where
  text : Str
  isFinal : Bool
deriving DecidableEq

/-- The result-accumulation loop of `onresult`: concatenate final pieces and
interim pieces separately, in event order. -/
def collectTranscripts (segs : List Segment) : Str × Str :=
  segs.foldl
    (fun acc s => if s.isFinal then (acc.1 ++ s.text, acc.2) else (acc.1, acc.2 ++ s.text))
    ([], [])

/-- The hook state touched by `onresult`: the live transcript, the last
accepted final result (`lastFinalResultRef`, stored trimmed) and the
watchdog activity timestamp (`lastActivityRef`). -/
structure RecogBuf where
  transcript : Str
  lastFinalResult : Str
  lastActivity : Nat
deriving DecidableEq

/-- The `onresult` handler: update the activity timestamp; prefer the final
transcript when present, dropping it when its trim equals the last final
result; otherwise show the interim transcript. -/
def onresult (buf : RecogBuf) (now : Nat) (segs : List Segment) : RecogBuf :=
  let buf1 := { buf with lastActivity := now }
  let finalTranscript := (collectTranscripts segs).1
  let interimTranscript := (collectTranscripts segs).2
  if finalTranscript ≠ [] then
    if trimStr finalTranscript = buf1.lastFinalResult then buf1
    else { buf1 with
            lastFinalResult := trimStr finalTranscript,
            transcript := finalTranscript }
  else if interimTranscript ≠ [] then { buf1 with transcript := interimTranscript }
  else buf1

/-- `WATCHDOG_INTERVAL` (ms): tick period of the watchdog interval. -/
def WATCHDOG_INTERVAL : Nat := 1000

/-- `AUTO_STOP_THRESHOLD` (ms): inactivity span after which the watchdog
invokes the auto-stop callback. -/
def AUTO_STOP_THRESHOLD : Nat := 10000

/-- State visible to the watchdog: whether the hook is listening and has a
recognizer, whether the watchdog interval is installed (`armed`), the
activity timestamp, a count of auto-stop callback invocations, and the
pending restart timers (which `checkAndAutoStop` never touches). -/
structure WatchSt where
  isListening : Bool
  hasRecognition : Bool
  armed : Bool
  lastActivity : Nat
  autoStopCount : Nat
  restartPending : List Nat
deriving DecidableEq

/-- One watchdog tick (`checkAndAutoStop`), composed with its surroundings:
the tick only runs while the interval is installed; it returns unless
listening with a recognizer; past the threshold it invokes the auto-stop
callback. `callbackStops` models the host's callback turning the
microphone off, which the `isListening` effects propagate (tearing the
interval down) before the next tick; the hook itself imposes nothing on
the callback. The function never restarts the recognizer and never touches
the restart timer. -/
def checkAndAutoStop (now : Nat) (callbackStops : Bool) (st : WatchSt) : WatchSt :=
  if !st.armed then st
  else if !st.isListening || !st.hasRecognition then st
  else if now - st.lastActivity > AUTO_STOP_THRESHOLD then
    let st1 := { st with autoStopCount := st.autoStopCount + 1 }
    if callbackStops then { st1 with isListening := false, armed := false } else st1
  else st

/-!
Silence-based commit controller, from `src/App.tsx`.
-/

/-- `SILENCE_TIMEOUT_MS`: commit delay after plain silence. -/
def SILENCE_TIMEOUT_MS : Nat := 1200

/-- `SENTENCE_END_TIMEOUT_MS`: shorter commit delay after a sentence-ending
character. -/
def SENTENCE_END_TIMEOUT_MS : Nat := 400

/-- `NOTICE_DURATION_MS`: how long the transient system notice stays up. -/
def NOTICE_DURATION_MS : Nat := 2000

/-- `SENTENCE_END_PATTERN` (`/[.?!。？！]$/`): the trimmed transcript ends in
sentence-terminating punctuation. -/
def sentenceEndTest (l : Str) : Bool :=
  match l.getLast? with
  | some c => ['.', '?', '!', '。', '？', '！'].contains c
  | none => false

/-- Which party holds the microphone (`activeMic`), when any. -/
inductive Speaker where
  | me : Speaker
  | partner : Speaker
deriving DecidableEq

/-- Commit-controller state: the last committed text
(`lastProcessedRef`) and when it was committed (`lastProcessedAtRef`). -/
structure CommitSt where
  lastProcessed : Str
  lastProcessedAt : Nat
deriving DecidableEq

/-- `commitTranscript(rawText, …)` up to its side effects: returns the text
handed to the translation step, if any, together with the updated
duplicate-tracking state. The candidate is the trimmed transcript; an
empty candidate commits nothing; a candidate equal to the recent last
commit is skipped; a candidate extending the last commit as a prefix
commits only the trimmed new suffix (nothing when no new content remains);
anything else commits whole. -/
def commitTranscript (rawText : Str) (st : CommitSt) (now : Nat) :
    Option Str × CommitSt :=
  let text := trimStr rawText
  if text = [] then (none, st)
  else if st.lastProcessed ≠ [] then
    if now - st.lastProcessedAt < 3000 ∧ text = st.lastProcessed then (none, st)
    else if st.lastProcessed <+: text then
      let newSegment := trimStr (text.drop st.lastProcessed.length)
      if newSegment = [] then (none, st)
      else (some newSegment, ⟨newSegment, now⟩)
    else (some text, ⟨text, now⟩)
  else (some text, ⟨text, now⟩)

/-- The `previousActiveMicRef` effect: when the active mic changes away from
a previous speaker, cancel the silence timer and flush the buffered
transcript for that speaker via `commitTranscript` (reason `mic-off`).
Returns the emitted commits (text tagged with the speaker), the updated
commit state and the commit timer slot. -/
def micSwitchFlush (previous current : Option Speaker) (transcript : Str)
    (st : CommitSt) (commitTimer : Option Nat) (now : Nat) :
    List (Str × Speaker) × CommitSt × Option Nat :=
  match previous with
  | none => ([], st, commitTimer)
  | some p =>
      if previous = current then ([], st, commitTimer)
      else
        let r := commitTranscript transcript st now
        (match r.1 with
          | some t => [(t, p)]
          | none => [], r.2, none)

/-- The silence-commit effect body: given the listening state, active mic
and live transcript, decide whether to arm a commit timer and with which
delay (the effect first clears the previous timer; `none` = no new timer).
An empty trimmed transcript, or one equal to the last commit within a
2000 ms window, arms nothing; otherwise the delay is
`SENTENCE_END_TIMEOUT_MS` on sentence-ending punctuation and
`SILENCE_TIMEOUT_MS` otherwise. -/
def silenceCommitEffect (isListening : Bool) (activeMic : Option Speaker)
    (transcript : Str) (st : CommitSt) (now : Nat) : Option Nat :=
  if !isListening || activeMic = none then none
  else
    let trimmed := trimStr transcript
    if trimmed = [] ∨ (trimmed = st.lastProcessed ∧ now - st.lastProcessedAt < 2000) then
      none
    else
      some (if sentenceEndTest trimmed then SENTENCE_END_TIMEOUT_MS else SILENCE_TIMEOUT_MS)

/-- The timers and flags owned by the session and its owning App: the
pending restart timer(s), the watchdog interval flag, the commit
(silence) timer and the notice timer. -/
structure AppSt where
  isListening : Bool
  restart : RestartSt
  watchdogArmed : Bool
  commitTimer : Option Nat
  noticeTimer : Option Nat
deriving DecidableEq

/-- Everything the code runs when the session is deactivated
(`isListening` becomes false): the `isListening` sync effect clears the
restart timer, the watchdog effect cleanup clears the interval, and the
silence-commit effect clears the commit timer. The notice timer is
cleared only by `showNotice` itself or by the unmount cleanup, not on
deactivation. -/
def deactivateSession (st : AppSt) : AppSt :=
  { st with
      isListening := false,
      restart := clearRestartTimeout st.restart,
      watchdogArmed := false,
      commitTimer := none }

/-!
Translation client, from `src/utils/translation.ts`.
-/

/-- `languageCodeMap[targetLang] || 'en'`: convert an app language code to
the API code. -/
def languageCodeMap (t : String) : String :=
  if t = "ko-KR" then "ko"
  else if t = "en-US" then "en"
  else if t = "ja-JP" then "ja"
  else if t = "zh-CN" then "zh"
  else "en"

/-- One character of the Korean-detection class `[ㄱ-ㅎ|ㅏ-ㅣ|가-힣]` (the
literal `|` belongs to the class as written). -/
def koreanChar (c : Char) : Bool :=
  (decide ('ㄱ' ≤ c) && decide (c ≤ 'ㅎ')) || c == '|' ||
  (decide ('ㅏ' ≤ c) && decide (c ≤ 'ㅣ')) || (decide ('가' ≤ c) && decide (c ≤ '힣'))

/-- `/[ㄱ-ㅎ|ㅏ-ㅣ|가-힣]/.test(text)`. -/
def hasKorean (l : Str) : Bool := l.any koreanChar

/-- One character of the Japanese-detection class `[ぁ-ゔ|ァ-ヴー|一-龯]`. -/
def japaneseChar (c : Char) : Bool :=
  (decide ('ぁ' ≤ c) && decide (c ≤ 'ゔ')) || c == '|' ||
  (decide ('ァ' ≤ c) && decide (c ≤ 'ヴ')) || c == 'ー' ||
  (decide ('一' ≤ c) && decide (c ≤ '龯'))

/-- `/[ぁ-ゔ|ァ-ヴー|一-龯]/.test(text)`. -/
def hasJapanese (l : Str) : Bool := l.any japaneseChar

/-- `/[一-鿿]/.test(text)`. -/
def hasChinese (l : Str) : Bool :=
  l.any (fun c => decide ('一' ≤ c) && decide (c ≤ '鿿'))

/-- The refined source-language detection run before the MyMemory call. -/
def detectSourceLangFinal (text : Str) : String :=
  if hasKorean text then "ko"
  else if hasJapanese text then "ja"
  else if hasChinese text then "zh"
  else "en"

/-- `text.trim().toLowerCase().replace(/[?.,!]/g, '')`. -/
def normalizedOf (text : Str) : Str :=
  ((trimStr text).map Char.toLower).filter (fun c => !(['?', '.', ',', '!'].contains c))

/-- `KOREAN_TO_ENGLISH`, keys in insertion order. -/
def KOREAN_TO_ENGLISH : List (Str × Str) :=
  [ ("안녕하세요".data, "Hello".data),
    ("반갑습니다".data, "Nice to meet you".data),
    ("잘 지내시나요".data, "How are you?".data),
    ("감사합니다".data, "Thank you".data),
    ("이름이 뭐예요".data, "What is your name?".data),
    ("안녕".data, "Hi".data),
    ("배고파요".data, "I'm hungry".data),
    ("배고파".data, "I'm hungry".data),
    ("목말라요".data, "I'm thirsty".data),
    ("좋아요".data, "Good".data),
    ("괜찮아요".data, "It's okay".data),
    ("알겠습니다".data, "I understand".data) ]

/-- `ENGLISH_TO_KOREAN`, keys in insertion order. -/
def ENGLISH_TO_KOREAN : List (Str × Str) :=
  [ ("hello".data, "안녕하세요".data),
    ("hi".data, "안녕".data),
    ("how are you".data, "잘 지내시나요?".data),
    ("nice to meet you".data, "반갑습니다".data),
    ("thank you".data, "감사합니다".data),
    ("what is your name".data, "이름이 뭐예요?".data),
    ("i'm hungry".data, "배고파요".data),
    ("im hungry".data, "배고파요".data),
    ("i'm thirsty".data, "목말라요".data),
    ("good".data, "좋아요".data),
    ("it's okay".data, "괜찮아요".data),
    ("i understand".data, "알겠습니다".data) ]

/-- The dictionary step of `translate`: for Korean→English the raw text,
and for English→Korean the normalized text, is scanned for the first key
it contains (`for (const key in …) if (….includes(key))`); a hit returns
the dictionary value. -/
def dictLookup (text normalizedText : Str) (sourceLang targetLangCode : String) :
    Option Str :=
  if sourceLang = "ko" ∧ targetLangCode = "en" then
    (KOREAN_TO_ENGLISH.find? (fun kv => decide (kv.1 <:+: text))).map (fun kv => kv.2)
  else if sourceLang = "en" ∧ targetLangCode = "ko" then
    (ENGLISH_TO_KOREAN.find? (fun kv => decide (kv.1 <:+: normalizedText))).map
      (fun kv => kv.2)
  else none

/-- Outcomes of the external calls `translate` may make, supplied as data:
whether an API key is configured; what `translateWithDeepL` returns
(`none` covers its own caught errors and empty results); whether the
MyMemory fetch/parse throws; and whether it yields a usable translation
(`responseStatus === 200` with a non-empty `translatedText`). -/
structure TranslateEnv where
  hasApiKey : Bool
  deepLResult : Option Str
  myMemoryThrows : Bool
  myMemoryStatusOk : Bool
  myMemoryText : Str
deriving DecidableEq

/-- Which external translation APIs a `translate` run called, in order. -/
inductive ApiCall where
  | deepl : ApiCall
  | mymemory : ApiCall
deriving DecidableEq

/-- The `translate` function: empty input is returned as is; the built-in
dictionary is tried first; then DeepL when a key is configured; then the
MyMemory API, unless the refined source language equals the target code
(in which case the text is returned untouched); an unusable MyMemory
response yields the tagged placeholder `[번역 실패] text`, and a thrown
error is caught and yields `[번역 오류] text`. The result is paired with
the list of external API calls made. -/
def translateText (env : TranslateEnv) (text : Str) (targetLang : String) :
    Str × List ApiCall :=
  if trimStr text = [] then (text, [])
  else
    let sourceLang := if hasKorean text then "ko" else "en"
    let targetLangCode := languageCodeMap targetLang
    let normalizedText := normalizedOf text
    match dictLookup text normalizedText sourceLang targetLangCode with
    | some v => (v, [])
    | none =>
        let deepLCalls : List ApiCall := if env.hasApiKey then [ApiCall.deepl] else []
        let deepLOutcome : Option Str := if env.hasApiKey then env.deepLResult else none
        match deepLOutcome with
        | some r => (r, deepLCalls)
        | none =>
            if detectSourceLangFinal text = targetLangCode then (text, deepLCalls)
            else if env.myMemoryThrows then
              ("[번역 오류] ".data ++ text, deepLCalls ++ [ApiCall.mymemory])
            else if env.myMemoryStatusOk then
              (env.myMemoryText, deepLCalls ++ [ApiCall.mymemory])
            else
              ("[번역 실패] ".data ++ text, deepLCalls ++ [ApiCall.mymemory])

/-- A chat message as `addMockMessage` records it: the original text and
its translated text. -/
structure MessageRec where
  text : Str
  translatedText : Str
deriving DecidableEq

/-- The pending message `addMockMessage` appends before translating. -/
def pendingMessage (orig pendingText : Str) : MessageRec :=
  { text := orig, translatedText := pendingText }

/-- The update `addMockMessage` applies once `translate` resolves: only the
translated field is replaced. -/
def resolveMessage (m : MessageRec) (translated : Str) : MessageRec :=
  { m with translatedText := translated }

/-!
Helper lemmas about `trimStr`.
-/

theorem trimStr_nil : trimStr [] = [] := rfl

theorem trimStr_eq_nil_iff {l : Str} : trimStr l = [] ↔ ∀ c ∈ l, isWS c := by
  unfold trimStr
  rw [List.rdropWhile_eq_nil_iff]
  constructor
  · intro h c hc
    have hsplit := List.takeWhile_append_dropWhile (p := isWS) (l := l)
    rw [← hsplit] at hc
    rcases List.mem_append.mp hc with h1 | h2
    · exact List.mem_takeWhile_imp h1
    · exact h c h2
  · intro h c hc
    exact h c ((List.dropWhile_suffix isWS).subset hc)

theorem trimStr_getLast_not_ws {l : Str} (h : trimStr l ≠ []) :
    ¬ isWS ((trimStr l).getLast h) :=
  List.rdropWhile_last_not _ _ h

theorem head_not_of_prefix {α : Type} (p : α → Bool) (x y : List α)
    (hx : x ≠ []) (hy : y ≠ []) (hpre : x <+: y) (hp : p (y.head hy) = false) :
    p (x.head hx) = false := by
  obtain ⟨t, rfl⟩ := hpre
  cases x with
  | nil => exact absurd rfl hx
  | cons a u => simpa using hp

theorem trimStr_head_not_ws {l : Str} (h : trimStr l ≠ []) :
    ¬ isWS ((trimStr l).head h) := by
  have hm : List.dropWhile isWS l ≠ [] := by
    intro h0
    exact h (by unfold trimStr; rw [h0]; rfl)
  have hfalse : isWS ((List.dropWhile isWS l).head hm) = false :=
    List.head_dropWhile_not isWS l hm
  have hx := head_not_of_prefix isWS (trimStr l) (List.dropWhile isWS l) h hm
    (List.rdropWhile_prefix isWS (List.dropWhile isWS l)) hfalse
  simp [hx]

theorem dropWhile_eq_self_of_head_not {α : Type} (p : α → Bool) (x : List α)
    (h : x ≠ []) (hp : ¬ p (x.head h)) : x.dropWhile p = x := by
  cases x with
  | nil => rfl
  | cons a t =>
    simp only [List.head_cons] at hp
    simp [List.dropWhile_cons, hp]

theorem rdropWhile_eq_self_of_getLast_not {α : Type} (p : α → Bool) (x : List α)
    (h : x ≠ []) (hp : ¬ p (x.getLast h)) : List.rdropWhile p x = x := by
  have h2 := List.dropLast_append_getLast h
  calc List.rdropWhile p x
      = List.rdropWhile p (x.dropLast ++ [x.getLast h]) := by rw [h2]
    _ = x.dropLast ++ [x.getLast h] := List.rdropWhile_concat_neg p _ _ hp
    _ = x := h2

theorem trimStr_idem (l : Str) : trimStr (trimStr l) = trimStr l := by
  by_cases h : trimStr l = []
  · rw [h]; rfl
  · show List.rdropWhile isWS (List.dropWhile isWS (trimStr l)) = trimStr l
    rw [dropWhile_eq_self_of_head_not isWS (trimStr l) h (trimStr_head_not_ws h)]
    exact rdropWhile_eq_self_of_getLast_not isWS (trimStr l) h (trimStr_getLast_not_ws h)

/-- A strict prefix extension of a trimmed non-empty string leaves a suffix
whose own trim is non-empty (the last character of the extension is not
whitespace). -/
theorem trimStr_drop_ne_nil {raw lp : Str} (h : trimStr raw ≠ [])
    (hpre : lp <+: trimStr raw) (hne : lp ≠ trimStr raw) :
    trimStr ((trimStr raw).drop lp.length) ≠ [] := by
  obtain ⟨s, hs⟩ := hpre
  have hdrop : (trimStr raw).drop lp.length = s := by
    rw [← hs]; exact List.drop_left _ _
  rw [hdrop]
  have hsne : s ≠ [] := by
    intro h0
    exact hne (by rw [← hs, h0, List.append_nil])
  intro h0
  have hws : ∀ c ∈ s, isWS c := trimStr_eq_nil_iff.mp h0
  have hlast : (trimStr raw).getLast h = s.getLast hsne := by
    exact (List.getLast_congr h (List.append_ne_nil_of_right_ne_nil lp hsne)
      hs.symm).trans (List.getLast_append' lp s hsne)
  exact trimStr_getLast_not_ws h (by rw [hlast]; exact hws _ (List.getLast_mem hsne))

/-!
Claim theorems.
-/

/-- C2: while the session is active, a platform fault is classified as
recoverable exactly when its kind is one of no-speech, aborted,
audio-capture or network; a recoverable fault schedules one restart whose
delay for network (1200 ms) is strictly longer than for the other
recoverable kinds (400 ms); any other fault stops the recognizer and
schedules no restart. -/
theorem c2_onerror_fault_classification (kind : String) :
    (kind ∈ RECOVERABLE_ERRORS ↔
      kind = "no-speech" ∨ kind = "aborted" ∨ kind = "audio-capture" ∨ kind = "network") ∧
    (kind ∈ RECOVERABLE_ERRORS → kind ≠ "network" →
      onerror true kind = RecAction.restartAfter 400) ∧
    onerror true "network" = RecAction.restartAfter 1200 ∧
    400 < 1200 ∧
    (kind ∉ RECOVERABLE_ERRORS → onerror true kind = RecAction.stopRec) := by
  refine ⟨?_, ?_, by decide, by decide, ?_⟩
  · simp [RECOVERABLE_ERRORS]
  · intro h hn
    simp [onerror, h, hn]
  · intro h
    simp [onerror, h]

/-- Witness for C2 at concrete fault kinds. -/
theorem c2_onerror_fault_classification_witness :
    onerror true "no-speech" = RecAction.restartAfter 400 ∧
    onerror true "audio-capture" = RecAction.restartAfter 400 ∧
    onerror true "not-allowed" = RecAction.stopRec :=
  ⟨(c2_onerror_fault_classification "no-speech").2.1 (by decide) (by decide),
   (c2_onerror_fault_classification "audio-capture").2.1 (by decide) (by decide),
   (c2_onerror_fault_classification "not-allowed").2.2.2.2 (by decide)⟩

/-- C7: whenever the silence-commit effect arms a commit timer, the chosen
delay is the short `SENTENCE_END_TIMEOUT_MS` exactly when the trimmed
transcript ends in sentence-terminating punctuation and the longer
`SILENCE_TIMEOUT_MS` otherwise, and the short delay is strictly less than
the long one. -/
theorem c7_commit_delay (isListening : Bool) (activeMic : Option Speaker)
    (transcript : Str) (st : CommitSt) (now d : Nat)
    (h : silenceCommitEffect isListening activeMic transcript st now = some d) :
    (d = SENTENCE_END_TIMEOUT_MS ↔ sentenceEndTest (trimStr transcript) = true) ∧
    (d = SILENCE_TIMEOUT_MS ↔ sentenceEndTest (trimStr transcript) = false) ∧
    SENTENCE_END_TIMEOUT_MS < SILENCE_TIMEOUT_MS := by
  simp only [silenceCommitEffect] at h
  split_ifs at h with h1 h2 h3
  · rcases Option.some.inj h with rfl
    simp [h3, SENTENCE_END_TIMEOUT_MS, SILENCE_TIMEOUT_MS]
  · rcases Option.some.inj h with rfl
    simp only [Bool.not_eq_true] at h3
    simp [h3, SENTENCE_END_TIMEOUT_MS, SILENCE_TIMEOUT_MS]

/-- Witness for C7: a transcript ending in a period gets the short delay. -/
theorem c7_commit_delay_witness :
    SENTENCE_END_TIMEOUT_MS < SILENCE_TIMEOUT_MS ∧
    sentenceEndTest (trimStr " Hi. ".data) = true :=
  ⟨(c7_commit_delay true (some Speaker.me) " Hi. ".data ⟨[], 0⟩ 5000 400 (by decide)).2.2,
   (c7_commit_delay true (some Speaker.me) " Hi. ".data ⟨[], 0⟩ 5000 400 (by decide)).1.mp rfl⟩

/-- C5: in a recognition result event, a non-empty final transcript takes
precedence over interim segments (the buffer is set to the final text,
whatever the interim pieces say), and a final transcript whose trim equals
the last accepted final result is dropped: the transcript buffer and the
duplicate tracker are left unchanged, so no duplicate message can be
produced downstream. -/
theorem c5_onresult_final_rules (buf : RecogBuf) (now : Nat) (segs : List Segment) :
    ((collectTranscripts segs).1 ≠ [] →
      trimStr (collectTranscripts segs).1 = buf.lastFinalResult →
      (onresult buf now segs).transcript = buf.transcript ∧
      (onresult buf now segs).lastFinalResult = buf.lastFinalResult) ∧
    ((collectTranscripts segs).1 ≠ [] →
      trimStr (collectTranscripts segs).1 ≠ buf.lastFinalResult →
      (onresult buf now segs).transcript = (collectTranscripts segs).1 ∧
      (onresult buf now segs).lastFinalResult = trimStr (collectTranscripts segs).1) := by
  constructor
  · intro h1 h2
    simp [onresult, h1, h2]
  · intro h1 h2
    simp [onresult, h1, h2]

/-- Witness for C5: a duplicated final result is dropped; a fresh final
result wins over the interim piece in the same event. -/
theorem c5_onresult_final_rules_witness :
    (onresult ⟨"x".data, "hello".data, 0⟩ 7
      [⟨" hello ".data, true⟩, ⟨"later".data, false⟩]).transcript = "x".data ∧
    (onresult ⟨"x".data, "prev".data, 0⟩ 7
      [⟨"hi".data, true⟩, ⟨"later".data, false⟩]).transcript = "hi".data :=
  ⟨((c5_onresult_final_rules ⟨"x".data, "hello".data, 0⟩ 7
      [⟨" hello ".data, true⟩, ⟨"later".data, false⟩]).1 (by decide) (by decide)).1,
   ((c5_onresult_final_rules ⟨"x".data, "prev".data, 0⟩ 7
      [⟨"hi".data, true⟩, ⟨"later".data, false⟩]).2 (by decide) (by decide)).1⟩

/-- C3: for a non-empty candidate (the trimmed transcript), a candidate
equal to the last committed text commits nothing; a candidate strictly
extending the last committed text as a prefix commits exactly the trimmed
new suffix (which is provably non-empty, so it is never silently dropped);
a candidate that does not extend the last committed text is committed
whole. -/
theorem c3_commit_prefix_rules (rawText : Str) (st : CommitSt) (now : Nat)
    (hne : trimStr rawText ≠ []) :
    (trimStr rawText = st.lastProcessed →
      (commitTranscript rawText st now).1 = none) ∧
    (st.lastProcessed <+: trimStr rawText → trimStr rawText ≠ st.lastProcessed →
      (commitTranscript rawText st now).1
        = some (trimStr ((trimStr rawText).drop st.lastProcessed.length)) ∧
      trimStr ((trimStr rawText).drop st.lastProcessed.length) ≠ []) ∧
    (¬ (st.lastProcessed <+: trimStr rawText) →
      (commitTranscript rawText st now).1 = some (trimStr rawText)) := by
  refine ⟨?_, ?_, ?_⟩
  · intro heq
    have hlp : st.lastProcessed ≠ [] := by rw [← heq]; exact hne
    have hdrop : (trimStr rawText).drop st.lastProcessed.length = [] := by
      rw [heq, List.drop_length]
    by_cases hrecent : now - st.lastProcessedAt < 3000
    · simp [commitTranscript, hne, hlp, hrecent, heq]
    · simp [commitTranscript, hne, hlp, hrecent, heq, List.drop_length, trimStr_nil]
  · intro hpre hneq
    by_cases hlp : st.lastProcessed = []
    · have hdrop0 : (trimStr rawText).drop st.lastProcessed.length = trimStr rawText := by
        rw [hlp]; rfl
      simp [commitTranscript, hne, hlp, hdrop0, trimStr_idem, hne]
    · have hseg := trimStr_drop_ne_nil hne hpre (fun h => hneq h.symm)
      have hdup : ¬ (now - st.lastProcessedAt < 3000 ∧ trimStr rawText = st.lastProcessed) :=
        fun h => hneq h.2
      simp [commitTranscript, hne, hlp, hdup, hpre, hseg]
  · intro hnpre
    have hlp : st.lastProcessed ≠ [] := by
      intro h0
      apply hnpre
      rw [h0]
      exact List.nil_prefix
    have hdup : ¬ (now - st.lastProcessedAt < 3000 ∧ trimStr rawText = st.lastProcessed) := by
      rintro ⟨-, heq⟩
      apply hnpre
      rw [heq]
    simp [commitTranscript, hne, hlp, hdup, hnpre]

/-- Witness for C3: a strict prefix extension commits only the new suffix;
an unrelated candidate is committed whole. -/
theorem c3_commit_prefix_rules_witness :
    (commitTranscript "Hello there".data ⟨"Hello".data, 0⟩ 10000).1 = some "there".data ∧
    (commitTranscript "Goodbye".data ⟨"Hello".data, 0⟩ 500).1 = some "Goodbye".data := by
  constructor
  · rw [((c3_commit_prefix_rules "Hello there".data ⟨"Hello".data, 0⟩ 10000
      (by decide)).2.1 (by decide) (by decide)).1]
    decide
  · rw [(c3_commit_prefix_rules "Goodbye".data ⟨"Hello".data, 0⟩ 500
      (by decide)).2.2 (by decide)]
    decide

/-- C4 counterexample: switching the mic away while a non-empty transcript
is buffered can emit zero commits — when the buffered text equals the last
committed text, the duplicate rule inside `commitTranscript` drops it, so
"non-empty after trimming implies exactly one commit" fails. -/
theorem c4_mic_switch_flush_cex :
    trimStr "Hello".data ≠ [] ∧
    (micSwitchFlush (some Speaker.me) none "Hello".data
      ⟨"Hello".data, 0⟩ (some 1200) 1000).1 = [] := by
  decide

/-- C4 (amended): switching the active speaker flushes at most one commit,
tagged with the previous speaker, and cancels the commit timer; an empty
or whitespace-only buffer emits zero commits; a buffer that survives the
duplicate/prefix rules of `commitTranscript` emits exactly one commit,
while a buffer those rules drop (identical to, or entirely covered by, the
last committed text) emits zero. -/
theorem c4_mic_switch_flush (previous current : Option Speaker) (transcript : Str)
    (st : CommitSt) (ct : Option Nat) (now : Nat) :
    (micSwitchFlush previous current transcript st ct now).1.length ≤ 1 ∧
    (trimStr transcript = [] →
      (micSwitchFlush previous current transcript st ct now).1 = []) ∧
    (∀ p, previous = some p → previous ≠ current →
      ∀ t, (commitTranscript transcript st now).1 = some t →
        (micSwitchFlush previous current transcript st ct now).1 = [(t, p)] ∧
        (micSwitchFlush previous current transcript st ct now).2.2 = none) ∧
    (∀ p, previous = some p → previous ≠ current →
      (commitTranscript transcript st now).1 = none →
      (micSwitchFlush previous current transcript st ct now).1 = []) := by
  refine ⟨?_, ?_, ?_, ?_⟩
  · rcases previous with - | p
    · simp [micSwitchFlush]
    · by_cases hc : some p = current
      · simp [micSwitchFlush, hc]
      · rcases hr : (commitTranscript transcript st now).1 with - | t <;>
          simp [micSwitchFlush, hc, hr]
  · intro htrim
    have hnone : (commitTranscript transcript st now).1 = none := by
      simp [commitTranscript, htrim]
    rcases previous with - | p
    · simp [micSwitchFlush]
    · by_cases hc : some p = current <;> simp [micSwitchFlush, hc, hnone]
  · rintro p rfl hc t hr
    simp [micSwitchFlush, hc, hr]
  · rintro p rfl hc hr
    simp [micSwitchFlush, hc, hr]

/-- Witness for C4 (amended): a fresh buffer flushes exactly one commit for
the previous speaker; a whitespace-only buffer flushes none. -/
theorem c4_mic_switch_flush_witness :
    (micSwitchFlush (some Speaker.me) none "Hi there".data
      ⟨[], 0⟩ (some 1200) 3000).1 = [("Hi there".data, Speaker.me)] ∧
    (micSwitchFlush (some Speaker.me) (some Speaker.partner) "  ".data
      ⟨[], 0⟩ none 3000).1 = [] :=
  ⟨((c4_mic_switch_flush (some Speaker.me) none "Hi there".data
      ⟨[], 0⟩ (some 1200) 3000).2.2.1 Speaker.me rfl (by decide)
      "Hi there".data (by decide)).1,
   (c4_mic_switch_flush (some Speaker.me) (some Speaker.partner) "  ".data
      ⟨[], 0⟩ none 3000).2.1 (by decide)⟩

/-- C6 counterexample: a failed restart attempt whose timer delay was the
1200 ms network delay is rescheduled at `min (1200 + 100) 1000 = 1000` ms —
a strictly smaller delay, refuting "rescheduled with a strictly increased
delay". -/
theorem c6_restart_backoff_cex :
    restartTimerFire true true StartOutcome.otherFailure 1200 = ⟨[1000]⟩ ∧
    ¬ (1200 < 1000) := by
  decide

/-- C6 (amended): at most one restart timer is in flight (`scheduleRestart`
clears the slot before installing exactly one timer, and a firing timer
leaves at most one). A restart attempt failing for a reason other than
`InvalidStateError` while the session is active reschedules with delay
`min (delay + 100) 1000`: strictly larger than the previous delay whenever
that stays within the 1000 ms cap, and clamped to the cap otherwise (a
decrease for the 1200 ms network delay). An `InvalidStateError` failure is
treated as success and does not reschedule. Nothing is rescheduled once
the session is no longer meant to be active. -/
theorem c6_restart_backoff (st : RestartSt) (delay : Nat) (hasRec : Bool)
    (outcome : StartOutcome) :
    (scheduleRestart st delay).pending = [delay] ∧
    (restartTimerFire true true StartOutcome.otherFailure delay).pending
      = [min (delay + 100) 1000] ∧
    (delay + 100 ≤ 1000 → delay < min (delay + 100) 1000) ∧
    min (delay + 100) 1000 ≤ 1000 ∧
    (restartTimerFire true true StartOutcome.invalidState delay).pending = [] ∧
    (restartTimerFire false hasRec outcome delay).pending = [] ∧
    (restartTimerFire true hasRec outcome delay).pending.length ≤ 1 := by
  refine ⟨rfl, rfl, ?_, ?_, rfl, ?_, ?_⟩
  · intro h
    omega
  · omega
  · simp [restartTimerFire]
  · rcases outcome <;> rcases hasRec <;>
      simp [restartTimerFire, scheduleRestart, clearRestartTimeout]

/-- Witness for C6 (amended): a 400 ms attempt that fails is rescheduled at
500 ms, strictly larger. -/
theorem c6_restart_backoff_witness :
    (restartTimerFire true true StartOutcome.otherFailure 400).pending
      = [min (400 + 100) 1000] ∧
    400 < min (400 + 100) 1000 :=
  ⟨(c6_restart_backoff ⟨[]⟩ 400 true StartOutcome.ok).2.1,
   (c6_restart_backoff ⟨[]⟩ 400 true StartOutcome.ok).2.2.1 (by decide)⟩

/-- A watchdog tick is a no-op once the interval has been torn down. -/
theorem checkAndAutoStop_unarmed (now : Nat) (b : Bool) (st : WatchSt)
    (h : st.armed = false) : checkAndAutoStop now b st = st := by
  simp [checkAndAutoStop, h]

/-- Any sequence of watchdog ticks is a no-op once the interval has been
torn down. -/
theorem checkAndAutoStop_foldl_unarmed (ticks : List (Nat × Bool)) (st : WatchSt)
    (h : st.armed = false) :
    ticks.foldl (fun s tb => checkAndAutoStop tb.1 tb.2 s) st = st := by
  induction ticks with
  | nil => rfl
  | cons tb rest ih =>
      simp only [List.foldl_cons, checkAndAutoStop_unarmed tb.1 tb.2 st h]
      exact ih

/-- C1 counterexample: the watchdog has no per-episode latch. With the
session listening, a recognizer present, the interval armed and no
activity since time 0, the ticks at 11000 ms and 12000 ms lie in one
inactivity episode, yet each invokes the auto-stop callback (here a
callback that does not deactivate the session, which nothing in the hook
rules out — no caller in the repository even passes one): two invocations
in one episode. -/
theorem c1_watchdog_autostop_cex :
    (checkAndAutoStop 12000 false (checkAndAutoStop 11000 false
      ⟨true, true, true, 0, 0, []⟩)).autoStopCount = 2 := by
  decide

/-- C1 (amended): a watchdog tick past the 10-second threshold invokes the
auto-stop callback and never restarts the recognizer (the restart timer
slot is untouched). The callback is invoked once per tick for as long as
the inactivity persists; it is invoked exactly once per inactivity episode
precisely when the callback deactivates the session (as the spec intends
the host to do), because deactivation tears the watchdog interval down and
every later tick is then a no-op. -/
theorem c1_watchdog_autostop (st : WatchSt) (now : Nat) (ticks : List (Nat × Bool))
    (harmed : st.armed = true) (hl : st.isListening = true)
    (hr : st.hasRecognition = true)
    (hth : now - st.lastActivity > AUTO_STOP_THRESHOLD) :
    (checkAndAutoStop now true st).autoStopCount = st.autoStopCount + 1 ∧
    (checkAndAutoStop now false st).autoStopCount = st.autoStopCount + 1 ∧
    (checkAndAutoStop now true st).restartPending = st.restartPending ∧
    (checkAndAutoStop now false st).restartPending = st.restartPending ∧
    (ticks.foldl (fun s tb => checkAndAutoStop tb.1 tb.2 s)
      (checkAndAutoStop now true st)).autoStopCount = st.autoStopCount + 1 := by
  have hstep : checkAndAutoStop now true st
      = { st with autoStopCount := st.autoStopCount + 1,
                  isListening := false, armed := false } := by
    simp [checkAndAutoStop, harmed, hl, hr, hth]
  have hstepf : checkAndAutoStop now false st
      = { st with autoStopCount := st.autoStopCount + 1 } := by
    simp [checkAndAutoStop, harmed, hl, hr, hth]
  refine ⟨by rw [hstep], by rw [hstepf], by rw [hstep], by rw [hstepf], ?_⟩
  rw [checkAndAutoStop_foldl_unarmed ticks (checkAndAutoStop now true st)
    (by rw [hstep]), hstep]

/-- Witness for C1 (amended): threshold exceeded at 20000 ms with a
deactivating callback; the later ticks at 21000 and 22000 ms add no
further invocation, and the restart slot is untouched. -/
theorem c1_watchdog_autostop_witness :
    ([((21000 : Nat), false), ((22000 : Nat), true)].foldl
      (fun s tb => checkAndAutoStop tb.1 tb.2 s)
      (checkAndAutoStop 20000 true ⟨true, true, true, 5000, 0, [50]⟩)).autoStopCount = 1 ∧
    (checkAndAutoStop 20000 true ⟨true, true, true, 5000, 0, [50]⟩).restartPending = [50] :=
  ⟨(c1_watchdog_autostop ⟨true, true, true, 5000, 0, [50]⟩ 20000
      [(21000, false), (22000, true)] rfl rfl rfl (by decide)).2.2.2.2,
   (c1_watchdog_autostop ⟨true, true, true, 5000, 0, [50]⟩ 20000
      [(21000, false), (22000, true)] rfl rfl rfl (by decide)).2.2.1⟩

/-- C8 counterexample: deactivating the session does not cancel the notice
timer (it is cancelled only by `showNotice` itself or by the unmount
cleanup), and the result handler is not guarded by the active flag (the
model takes no listening input at all, mirroring the source), so a
pending notice timer survives deactivation and a late result event still
mutates the transcript. -/
theorem c8_deactivate_cex :
    (deactivateSession ⟨true, ⟨[]⟩, true, none, some 2000⟩).noticeTimer = some 2000 ∧
    (onresult ⟨[], [], 0⟩ 5 [⟨"hi".data, false⟩]).transcript = "hi".data := by
  decide

/-- C8 (amended): deactivating the session immediately cancels the restart
timer, the watchdog interval and the commit timer — but not the notice
timer, which only the unmount cleanup cancels. The error, end, restart-
timer and watchdog handlers are all no-ops without the active
flag/armed interval, and the silence-commit effect arms nothing while
inactive; the result handler is the exception and remains unguarded. -/
theorem c8_deactivate_cancels (st : AppSt) (kind : String) (rst : RestartSt)
    (hasRec : Bool) (outcome : StartOutcome) (delay : Nat) (w : WatchSt)
    (n : Nat) (b : Bool) :
    (deactivateSession st).isListening = false ∧
    (deactivateSession st).restart.pending = [] ∧
    (deactivateSession st).watchdogArmed = false ∧
    (deactivateSession st).commitTimer = none ∧
    onerror false kind = RecAction.nothing ∧
    (onend false rst).pending = [] ∧
    (restartTimerFire false hasRec outcome delay).pending = [] ∧
    (w.armed = false → checkAndAutoStop n b w = w) ∧
    (∀ mic transcript cst m, silenceCommitEffect false mic transcript cst m = none) := by
  refine ⟨rfl, rfl, rfl, rfl, rfl, rfl, ?_, ?_, ?_⟩
  · simp [restartTimerFire]
  · exact checkAndAutoStop_unarmed n b w
  · intro mic transcript cst m
    simp [silenceCommitEffect]

/-- Witness for C8 (amended) at a concrete state: all three timers the
deactivation path owns are cleared, and an unarmed watchdog tick is a
no-op. -/
theorem c8_deactivate_cancels_witness :
    (deactivateSession ⟨true, ⟨[700]⟩, true, some 1200, some 2000⟩).restart.pending = [] ∧
    checkAndAutoStop 9 true ⟨false, true, false, 0, 0, []⟩ = ⟨false, true, false, 0, 0, []⟩ :=
  ⟨(c8_deactivate_cancels ⟨true, ⟨[700]⟩, true, some 1200, some 2000⟩ "x" ⟨[]⟩
      true StartOutcome.ok 0 ⟨false, true, false, 0, 0, []⟩ 9 true).2.1,
   (c8_deactivate_cancels ⟨true, ⟨[700]⟩, true, some 1200, some 2000⟩ "x" ⟨[]⟩
      true StartOutcome.ok 0 ⟨false, true, false, 0, 0, []⟩ 9 true).2.2.2.2.2.2.2.1 rfl⟩

/-- A whitespace character is not in the Korean-detection class. -/
theorem ws_not_koreanChar (c : Char) (h : isWS c = true) : koreanChar c = false := by
  simp only [isWS, Bool.or_eq_true, beq_iff_eq] at h
  rcases h with ((rfl | rfl) | rfl) | rfl <;> decide

/-- A Korean-detected string does not trim to empty (every character of the
detection class is non-whitespace), so it passes the empty-input guard of
`translateText`. -/
theorem hasKorean_trimStr_ne_nil {text : Str} (h : hasKorean text = true) :
    trimStr text ≠ [] := by
  obtain ⟨c, hc, hk⟩ := List.any_eq_true.mp h
  intro h0
  have hw : isWS c := trimStr_eq_nil_iff.mp h0 c hc
  rw [ws_not_koreanChar c hw] at hk
  exact Bool.false_ne_true hk

/-- C10: when the input is Korean-detected and the target is English, a
built-in dictionary key contained in the raw input makes `translateText`
return exactly the value of the first matching key (in insertion order),
discarding the rest of the utterance and calling no external API
whatsoever; symmetrically for English-detected input targeting Korean,
where the source scans the normalized (trimmed, lower-cased,
punctuation-stripped) input for the key. -/
theorem c10_dictionary_shortcut (env : TranslateEnv) (text : Str) (kv : Str × Str) :
    (hasKorean text = true →
      KOREAN_TO_ENGLISH.find? (fun e => decide (e.1 <:+: text)) = some kv →
      translateText env text "en-US" = (kv.2, [])) ∧
    (hasKorean text = false → trimStr text ≠ [] →
      ENGLISH_TO_KOREAN.find? (fun e => decide (e.1 <:+: normalizedOf text)) = some kv →
      translateText env text "ko-KR" = (kv.2, [])) := by
  constructor
  · intro hko hfind
    have htrim := hasKorean_trimStr_ne_nil hko
    simp [translateText, dictLookup, languageCodeMap, hko, hfind, htrim]
  · intro hko htrim hfind
    simp [translateText, dictLookup, languageCodeMap, hko, hfind, htrim]

/-- Witness for C10: a Korean greeting with extra words maps to the bare
dictionary value with no API call even though DeepL is configured, and an
English greeting with punctuation maps through the normalized lookup. -/
theorem c10_dictionary_shortcut_witness :
    translateText ⟨true, some "DEEPL".data, false, true, "MM".data⟩
      "안녕하세요 여러분".data "en-US" = ("Hello".data, []) ∧
    translateText ⟨false, none, false, false, []⟩
      "Hello there?".data "ko-KR" = ("안녕하세요".data, []) :=
  ⟨(c10_dictionary_shortcut ⟨true, some "DEEPL".data, false, true, "MM".data⟩
      "안녕하세요 여러분".data ("안녕하세요".data, "Hello".data)).1 (by decide) (by decide),
   (c10_dictionary_shortcut ⟨false, none, false, false, []⟩
      "Hello there?".data ("hello".data, "안녕하세요".data)).2 (by decide) (by decide)
      (by decide)⟩

/-- C9: when the translation step fails — the dictionary does not apply,
DeepL is unconfigured or failed, and the MyMemory call throws or returns
an unusable response — `translateText` still returns (it is total, the
source catches everything): the result is a visibly tagged placeholder
(`[번역 오류]`/`[번역 실패]`) carrying the original text as a suffix, the
MyMemory API is called exactly once (no retry), and the recorded message
keeps the original text, only its translated field holding the
placeholder. -/
theorem c9_translation_failure (env : TranslateEnv) (text : Str) (targetLang : String)
    (pendingText : Str)
    (htrim : trimStr text ≠ [])
    (hdict : dictLookup text (normalizedOf text)
      (if hasKorean text then "ko" else "en") (languageCodeMap targetLang) = none)
    (hdeepl : env.hasApiKey = true → env.deepLResult = none)
    (hlang : detectSourceLangFinal text ≠ languageCodeMap targetLang)
    (hmm : env.myMemoryStatusOk = false) :
    (translateText env text targetLang).1
      = (if env.myMemoryThrows then "[번역 오류] ".data else "[번역 실패] ".data) ++ text ∧
    text <:+ (translateText env text targetLang).1 ∧
    (translateText env text targetLang).2.count ApiCall.mymemory = 1 ∧
    (resolveMessage (pendingMessage text pendingText)
      (translateText env text targetLang).1).text = text ∧
    (resolveMessage (pendingMessage text pendingText)
      (translateText env text targetLang).1).translatedText
      = (if env.myMemoryThrows then "[번역 오류] ".data else "[번역 실패] ".data) ++ text := by
  have hres : translateText env text targetLang
      = ((if env.myMemoryThrows then "[번역 오류] ".data else "[번역 실패] ".data) ++ text,
         (if env.hasApiKey then [ApiCall.deepl] else []) ++ [ApiCall.mymemory]) := by
    rcases env with ⟨hk, dl, mt, ok, mtext⟩
    simp only at hdeepl hmm
    subst hmm
    rcases hk with - | -
    · rcases mt with - | - <;> simp [translateText, htrim, hdict, hlang]
    · have hdl : dl = none := hdeepl rfl
      subst hdl
      rcases mt with - | - <;> simp [translateText, htrim, hdict, hlang]
  rw [hres]
  refine ⟨rfl, List.suffix_append _ _, ?_, rfl, rfl⟩
  by_cases h : env.hasApiKey = true
  · simp [h]
  · simp [h]

/-- Witness for C9: no key, no dictionary hit, MyMemory unusable — the
result is the tagged failure placeholder around the original text and the
recorded message keeps the original text. -/
theorem c9_translation_failure_witness :
    (translateText ⟨false, none, false, false, []⟩ "xyz".data "ja-JP").1
      = "[번역 실패] ".data ++ "xyz".data ∧
    (resolveMessage (pendingMessage "xyz".data "p".data)
      (translateText ⟨false, none, false, false, []⟩ "xyz".data "ja-JP").1).text
      = "xyz".data := by
  have h := c9_translation_failure ⟨false, none, false, false, []⟩ "xyz".data "ja-JP"
    "p".data (by decide) (by decide) (fun hk => by simp at hk) (by decide) rfl
  exact ⟨by simpa using h.1, h.2.2.2.1⟩
